import Mathlib

/-!
Verification development for the laplace-core process supervisor.

The definitions below are a shallow embedding of the TypeScript sources:
`src/backend/core/minecraft.ts` (class MinecraftServer) and
`src/unnamed/part_001` (writeJsonAtomic / readJsonSafe).  Pure string
manipulation is translated to Lean functions on `String`/`List Char`;
the mutable object state of the class becomes the record `MCState`;
the node filesystem becomes the explicit record `FS` (association lists
of paths to directory / file entries); methods become functions from
`World` (object state plus filesystem) to `World`, returning
`Except String` where the original method can throw.  Environment
nondeterminism (network connect results, RCON responses, write
failures) is passed in as explicit parameters.
-/

namespace Laplace

/-- Decidable equality for Except results, so concrete runs of the
operations can be checked by evaluation. -/
instance instDecEqExcept {ε α : Type} [DecidableEq ε] [DecidableEq α] :
    DecidableEq (Except ε α)
  | .ok a, .ok b =>
    if h : a = b then isTrue (by rw [h]) else isFalse (by simp [h])
  | .ok _, .error _ => isFalse (by simp)
  | .error _, .ok _ => isFalse (by simp)
  | .error e, .error f =>
    if h : e = f then isTrue (by rw [h]) else isFalse (by simp [h])

/-- Lifecycle states, from the `status` field of MinecraftServer. -/
inductive Status where
  | OFFLINE | STARTING | ONLINE | STOPPING | RESTARTING | CRASHED
  deriving DecidableEq, Repr

/-- Log entry categories, from the LogEntry type in types.ts. -/
inductive LType where
  | info | warn | error | chat
  deriving DecidableEq, Repr

/-- A log entry: timestamp, cleaned message, category (types.ts LogEntry). -/
structure LogEntry where
  timestamp : String
  message : String
  type : LType
  deriving DecidableEq, Repr

/-- The javaArgs sub-object of ServerConfig. -/
structure JavaArgs where
  xmx : String
  xms : String
  args : String
  deriving DecidableEq, Repr

/-- The instance descriptor (types.ts ServerConfig); rconPassword is an
optional property in the TypeScript type, hence `Option`. -/
structure ServerConfig where
  id : String
  name : String
  jarFile : String
  javaArgs : JavaArgs
  rconPort : Nat
  rconPassword : Option String
  autoRestart : Bool
  created : Nat
  deriving DecidableEq, Repr

/-- The unauthenticated public snapshot (types.ts PublicServerInfo);
players.max is `Option Nat` because `parseInt` can produce NaN. -/
structure PublicServerInfo where
  name : String
  motd : String
  status : Status
  version : String
  coreType : String
  playersOnline : Nat
  playersMax : Option Nat
  playersList : List String
  lastUpdated : Nat
  deriving DecidableEq, Repr

/-! ## String helpers translated from the source

Lean core string functions such as trim, splitOn and toLower are
implemented over byte iterators with well-founded recursion, which the
kernel cannot evaluate; the embedding therefore uses the structurally
recursive character-list equivalents below, so every definition in this
file evaluates on concrete inputs. -/

/-- ASCII whitespace as trimmed by `String.trim` in JavaScript. -/
def isJsWs (c : Char) : Bool :=
  c = ' ' || c = '\t' || c = '\n' || c = '\r' ||
  c = Char.ofNat 0x0B || c = Char.ofNat 0x0C

/-- Models the string trim method. -/
def trimStr (s : String) : String :=
  String.mk (((s.data.dropWhile isJsWs).reverse.dropWhile isJsWs).reverse)

/-- Models toLowerCase (ASCII range). -/
def lowerStr (s : String) : String := String.mk (s.data.map Char.toLower)

/-- When `pat` leads `cs`, the remainder after it. -/
def dropLead : List Char → List Char → Option (List Char)
  | [], rest => some rest
  | _ :: _, [] => none
  | p :: ps, c :: rest => if c = p then dropLead ps rest else none

/-- Worker for splitStr; the fuel (input length) keeps the recursion
structural, and suffices because every step consumes a character. -/
def splitSeqAux (pat : List Char) : Nat → List Char → List Char → List (List Char)
  | _, [], acc => [acc.reverse]
  | 0, cs, acc => [acc.reverse ++ cs]
  | fuel + 1, c :: rest, acc =>
    match dropLead pat (c :: rest) with
    | some rem => acc.reverse :: splitSeqAux pat fuel rem []
    | none => splitSeqAux pat fuel rest (c :: acc)

/-- Models the string split method for a nonempty pattern (every use in
the source has one); splits at each non-overlapping occurrence, left to
right. -/
def splitStr (s pat : String) : List String :=
  if pat.data = [] then [s]
  else (splitSeqAux pat.data s.data.length s.data []).map String.mk

/-- Models the startsWith method. -/
def startsWithStr (s pat : String) : Bool := (dropLead pat.data s.data).isSome

/-- Models the id derivation of createServer: lowercase the name, then
replace every character outside the class a-z, 0-9 with a hyphen. -/
def slugify (name : String) : String :=
  String.mk ((lowerStr name).data.map
    (fun c => if ('a' ≤ c ∧ c ≤ 'z') ∨ c.isDigit then c else '-'))

/-- The character class `[0-9a-fk-or]` of the color-code regex. -/
def colorCode (c : Char) : Bool :=
  c.isDigit || ('a' ≤ c && c ≤ 'f') || ('k' ≤ c && c ≤ 'o') || c = 'r'

/-- First byte pair of the literal written in the source regex on line 495
of minecraft.ts.  The file stores U+0E22 followed by U+0E07 (the UTF-8
bytes of U+00A7 read back under a Thai codepage), not the section sign
U+00A7 itself. -/
def mojiA : Char := Char.ofNat 0x0E22

/-- Second character of the literal in the source regex (see mojiA). -/
def mojiB : Char := Char.ofNat 0x0E07

/-- Models the color-code replacement of executeCommand (remove every
match of the two mojibake characters followed by a color character),
applied to the character list of the response.  The two-character lead
of each match is the pair actually present in the source file. -/
def stripColorCodes : List Char → List Char
  | c1 :: c2 :: c3 :: rest =>
    if c1 = mojiA ∧ c2 = mojiB ∧ colorCode c3 then stripColorCodes rest
    else c1 :: stripColorCodes (c2 :: c3 :: rest)
  | other => other

/-- String version of stripColorCodes. -/
def stripColorCodesS (s : String) : String := String.mk (stripColorCodes s.data)

/-- Start characters of the ANSI-strip regex in `log`: `[\u001b\u009b]`. -/
def ansiStart (c : Char) : Bool := c = Char.ofNat 0x1b || c = Char.ofNat 0x9b

/-- Middle class of the ANSI-strip regex: `[[()#;?]`. -/
def ansiMid (c : Char) : Bool :=
  c = '[' || c = '(' || c = ')' || c = '#' || c = ';' || c = '?'

/-- Final class of the ANSI-strip regex: `[0-9A-ORZcf-nqry=><]`. -/
def ansiFinal (c : Char) : Bool :=
  c.isDigit || ('A' ≤ c && c ≤ 'O') || c = 'R' || c = 'Z' || c = 'c' ||
  ('f' ≤ c && c ≤ 'n') || c = 'q' || c = 'r' || c = 'y' || c = '=' || c = '>' || c = '<'

/-- Number of leading decimal digits of a character list. -/
def leadDigits : List Char → Nat
  | c :: rest => if c.isDigit then leadDigits rest + 1 else 0
  | [] => 0

/-- Backtracking matcher for `(?:;[0-9]{0,4})*` followed by the final
character class, mirroring the greedy-with-backtracking semantics of the
JavaScript regex engine.  The fuel argument bounds recursion; callers pass
the input length, sufficient because every recursive call consumes at
least the leading semicolon.  Returns the remainder after the match. -/
def gstarF (fuel : Nat) (cs : List Char) : Option (List Char) :=
  match fuel, cs with
  | _, [] => none
  | 0, _ => none
  | fuel + 1, c :: rest =>
    if c = ';' then
      let n := min 4 (leadDigits rest)
      (List.range (n + 1)).foldl
        (fun acc k =>
          match acc with
          | some r => some r
          | none => gstarF fuel (rest.drop (n - k)))
        none
    else if ansiFinal c then some rest
    else none

/-- Matcher for `(?:[0-9]{1,4}(?:;[0-9]{0,4})*)?` followed by the final
class, with backtracking over the greedy digit count. -/
def matchDF (cs : List Char) : Option (List Char) :=
  let n := min 4 (leadDigits cs)
  let viaDigits := (List.range n).foldl
    (fun acc k =>
      match acc with
      | some r => some r
      | none => gstarF (cs.length + 1) (cs.drop (n - k)))
    none
  match viaDigits with
  | some r => some r
  | none =>
    match cs with
    | c :: rest => if ansiFinal c then some rest else none
    | [] => none

/-- Attempt to match the whole ANSI escape pattern at the head of the
input; on success return the remainder after the match. -/
def matchAnsi : List Char → Option (List Char)
  | c :: rest =>
    if ansiStart c then matchDF (rest.dropWhile ansiMid)
    else none
  | [] => none

/-- Global replacement of the ANSI control-sequence pattern of the log
method (the full regex of minecraft.ts line 537) with the empty string.
Fuel-driven left-to-right scan; every match consumes at least one char. -/
def cleanAnsiAux (fuel : Nat) (cs : List Char) : List Char :=
  match fuel, cs with
  | _, [] => []
  | 0, cs => cs
  | fuel + 1, c :: rest =>
    match matchAnsi (c :: rest) with
    | some r => cleanAnsiAux fuel r
    | none => c :: cleanAnsiAux fuel rest

/-- ANSI-strip followed by `.trim()`. -/
def cleanMessage (msg : String) : String :=
  trimStr (String.mk (cleanAnsiAux msg.length msg.data))

/-- True when `pat` occurs as a substring of `s` (models `String.includes`). -/
def strContains (s pat : String) : Bool := (splitStr s pat).length > 1

/-- Leading-digits integer parse modeling `parseInt` (none = NaN). -/
def parseIntNat (s : String) : Option Nat :=
  let ds := s.data.takeWhile Char.isDigit
  if ds = [] then none
  else some (ds.foldl (fun n c => n * 10 + (c.toNat - 48)) 0)

/-- Models the timestamp sanitization of createBackup: colons and dots
become hyphens. -/
def sanitizeTs (iso : String) : String :=
  String.mk (iso.data.map (fun c => if c = ':' ∨ c = '.' then '-' else c))

/-- Models the label sanitization of createBackup: drop every character
outside letters, digits, hyphen and underscore. -/
def sanitizeName (n : String) : String :=
  String.mk (n.data.filter
    (fun c => ('a' ≤ c ∧ c ≤ 'z') ∨ ('A' ≤ c ∧ c ≤ 'Z') ∨ c.isDigit ∨ c = '-' ∨ c = '_'))

/-- Models detectCoreType from minecraft.ts. -/
def detectCoreType (jarName : String) : String :=
  let lower := lowerStr jarName
  if strContains lower "paper" then "Paper"
  else if strContains lower "spigot" then "Spigot"
  else if strContains lower "forge" then "Forge"
  else if strContains lower "fabric" then "Fabric"
  else "Vanilla/Custom"

/-! ## Filesystem model -/

/-- A path, as its list of components. -/
abbrev FPath := List String

/-- File contents.  JSON files whose structured content matters to the
program are kept structurally (a JSON.parse that succeeds corresponds to
the matching constructor); plain files are text. -/
inductive FData where
  | text (s : String)
  | conf (c : ServerConfig)
  | pub (p : PublicServerInfo)
  deriving DecidableEq, Repr

/-- Insert-or-replace in an association list, preserving insertion order. -/
def upsertF (k : FPath) (v : FData) : List (FPath × FData) → List (FPath × FData)
  | [] => [(k, v)]
  | (k0, v0) :: rest => if k0 = k then (k, v) :: rest else (k0, v0) :: upsertF k v rest

/-- The filesystem: directories (with creation time, for birthtimeMs)
and files. -/
structure FS where
  dirs : List (FPath × Nat)
  files : List (FPath × FData)
  deriving DecidableEq, Repr

def FS.isDir (fs : FS) (p : FPath) : Bool := fs.dirs.any (fun e => e.1 = p)

def FS.lookupFile (fs : FS) (p : FPath) : Option FData :=
  (fs.files.find? (fun e => e.1 = p)).map (·.2)

def FS.isFile (fs : FS) (p : FPath) : Bool := (fs.lookupFile p).isSome

/-- Models `fs.existsSync`. -/
def FS.existsSync (fs : FS) (p : FPath) : Bool := fs.isDir p || fs.isFile p

/-- Models `fs.writeFileSync` / `fs.copyFileSync` target effect. -/
def FS.writeFile (fs : FS) (p : FPath) (d : FData) : FS :=
  { fs with files := upsertF p d fs.files }

/-- All nonempty leading portions of a path (the chain of ancestors). -/
def ancestorsOf (p : FPath) : List FPath :=
  (List.range p.length).map (fun i => p.take (i + 1))

/-- Models `fs.mkdirSync(p, recursive true)`. -/
def FS.mkdirp (fs : FS) (p : FPath) (now : Nat) : FS :=
  { fs with dirs := fs.dirs ++
      ((ancestorsOf p).filter (fun q => ¬ fs.isDir q)).map (fun q => (q, now)) }

/-- True when `q` equals `root` or lies below it. -/
def underEq (root q : FPath) : Bool := q.take root.length = root

/-- Models `fs.rmSync(p, recursive true, force true)`. -/
def FS.rmRec (fs : FS) (p : FPath) : FS :=
  { dirs := fs.dirs.filter (fun e => ¬ underEq p e.1),
    files := fs.files.filter (fun e => ¬ underEq p e.1) }

/-- First occurrences of a list of names, in order. -/
def dedupKeep : List String → List String
  | [] => []
  | x :: rest => x :: (dedupKeep rest).filter (fun y => y ≠ x)

/-- Models `fs.readdirSync`: names of the immediate children of `p`. -/
def FS.readdirSync (fs : FS) (p : FPath) : List String :=
  dedupKeep ((fs.dirs.map (·.1) ++ fs.files.map (·.1)).filterMap
    (fun q => if q.length = p.length + 1 ∧ q.take p.length = p then q.getLast? else none))

/-- Models `fs.copyFileSync` (source assumed present, as in the program). -/
def FS.copyFileSync (fs : FS) (src dst : FPath) : FS :=
  match fs.lookupFile src with
  | some d => fs.writeFile dst d
  | none => fs

/-- Re-root a path from src to dst. -/
def rebase (src dst q : FPath) : FPath := dst ++ q.drop src.length

/-- Models `fs.cpSync(src, dst, recursive, filter)`: copies every entry
under src whose source path passes the filter. -/
def FS.cpSync (fs : FS) (src dst : FPath) (filt : FPath → Bool) (now : Nat) : FS :=
  let newDirs := (fs.dirs.filter (fun e => underEq src e.1 && filt e.1)).map
    (fun e => (rebase src dst e.1, now))
  let newFiles := (fs.files.filter (fun e => underEq src e.1 && filt e.1)).map
    (fun e => (rebase src dst e.1, e.2))
  { dirs := fs.dirs ++ newDirs.filter (fun e => ¬ fs.isDir e.1),
    files := newFiles.foldl (fun acc e => upsertF e.1 e.2 acc) fs.files }

/-- Models `fs.renameSync` on a file (the only use in the program). -/
def FS.renameSync (fs : FS) (src dst : FPath) : FS :=
  match fs.lookupFile src with
  | some d => { fs with files := upsertF dst d (fs.files.filter (fun e => e.1 ≠ src)) }
  | none => fs

/-- Models `fs.appendFile` on the per-instance text log. -/
def FS.appendText (fs : FS) (p : FPath) (line : String) : FS :=
  match fs.lookupFile p with
  | some (.text s) => fs.writeFile p (.text (s ++ line))
  | some _ => fs
  | none => fs.writeFile p (.text line)

/-- birthtimeMs of a directory (0 when unknown, as a stat default). -/
def FS.birthOf (fs : FS) (p : FPath) : Nat :=
  ((fs.dirs.find? (fun e => e.1 = p)).map (·.2)).getD 0

/-- One step of `path.join`, resolving a `..` component. -/
def joinOne (p : FPath) (s : String) : FPath :=
  if s = ".." then p.dropLast else p ++ [s]

/-- Render a path the way the program prints it in messages. -/
def pathToString (p : FPath) : String := String.intercalate "/" p

/-- Does any component of the path contain `pat` (models
`src.includes(pat)` on the joined path)? -/
def pathHasPart (q : FPath) (pat : String) : Bool := q.any (fun comp => strContains comp pat)

/-! ## Supervisor state -/

/-- The mutable fields of class MinecraftServer.  `process` and `rcon`
are true when the corresponding handle is non-null (stdin and socket
included, as the program only tests them together); `pollerActive`
models a live statusInterval; `now`/`nowIso` model Date.now() and
Date().toISOString() of the current instant. -/
structure MCState where
  process : Bool
  rcon : Bool
  config : Option ServerConfig
  serverDir : FPath
  logs : List LogEntry
  status : Status
  crashCount : Nat
  intentionToStop : Bool
  serversDir : FPath
  onlinePlayers : List String
  startTime : Option Nat
  pollerActive : Bool
  now : Nat
  nowIso : String
  deriving DecidableEq, Repr

/-- The cap MAX_LOGS from minecraft.ts line 22. -/
def MAX_LOGS : Nat := 500

/-- Object state plus filesystem. -/
structure World where
  mc : MCState
  fs : FS
  deriving DecidableEq, Repr

/-! ## Configuration persistence (src/unnamed/part_001) -/

/-- Environment outcome of one atomic write: success, a writeFileSync
failure (with the content, possibly truncated, that the failed write
left at the temporary path, or none when nothing was created), or a
renameSync failure. -/
inductive WriteOutcome where
  | ok
  | writeFail (msg : String) (part : Option FData)
  | renameFail (msg : String)
  deriving DecidableEq, Repr

/-- The error message thrown for a failing outcome. -/
def WriteOutcome.failMsg : WriteOutcome → Option String
  | .ok => none
  | .writeFail msg _ => some msg
  | .renameFail msg => some msg

/-- The sibling temporary path: filePath + ".tmp". -/
def tmpPath (p : FPath) : FPath :=
  p.dropLast ++ [(p.getLast?.getD "") ++ ".tmp"]

/-- Models writeJsonAtomic from src/unnamed/part_001: stringify data, write it
to the sibling temporary path, rename over the target; on any failure,
log to console and rethrow the error. -/
def writeJsonAtomic (o : WriteOutcome) (filePath : FPath) (data : FData) (fs : FS) :
    Except String Unit × FS :=
  let tmp := tmpPath filePath
  match o with
  | .ok => (.ok (), (fs.writeFile tmp data).renameSync tmp filePath)
  | .writeFail msg part =>
    (.error msg, match part with | none => fs | some d => fs.writeFile tmp d)
  | .renameFail msg => (.error msg, fs.writeFile tmp data)

/-! ## Log ring buffer -/

/-- The line appended to laplace.log for an entry. -/
def logLine (e : LogEntry) : String :=
  let lvl := match e.type with
    | .info => "INFO" | .warn => "WARN" | .error => "ERROR" | .chat => "CHAT"
  "[" ++ e.timestamp ++ "] [" ++ lvl ++ "] " ++ e.message ++ "\n"

/-- The private `log` method: clean the message, drop it when empty,
push the entry evicting the oldest when over MAX_LOGS, and append to the
per-instance log file when a server directory is selected. -/
def log (message : String) (t : LType) (w : World) : World :=
  let cleanMsg := cleanMessage message
  if cleanMsg = "" then w
  else
    let entry : LogEntry := { timestamp := w.mc.nowIso, message := cleanMsg, type := t }
    let logs1 := w.mc.logs ++ [entry]
    let logs2 := if logs1.length > MAX_LOGS then logs1.drop 1 else logs1
    let fs2 := if w.mc.serverDir ≠ [] then
        w.fs.appendText (w.mc.serverDir ++ ["laplace.log"]) (logLine entry)
      else w.fs
    { mc := { w.mc with logs := logs2 }, fs := fs2 }

/-- Wrapper logSystem. -/
def logSystem (msg : String) (w : World) : World := log msg .info w

/-- Wrapper logError. -/
def logError (msg : String) (w : World) : World := log msg .error w

/-! ## Properties file and public snapshot -/

/-- Parse of the line-oriented properties content (readPropertiesFile
body): trim each line, skip blank and `#` lines, split at the first `=`.
The resulting record is an insertion-ordered association list in which
a repeated key overwrites its value in place. -/
def upsertS (k v : String) : List (String × String) → List (String × String)
  | [] => [(k, v)]
  | (k0, v0) :: rest => if k0 = k then (k, v) :: rest else (k0, v0) :: upsertS k v rest

/-- Split a properties line at its first `=`; none when no `=` occurs. -/
def splitKV (line : String) : Option (String × String) :=
  match splitStr line "=" with
  | [] => none
  | [_] => none
  | k :: rest => some (trimStr k, trimStr (String.intercalate "=" rest))

/-- Content-level part of `readPropertiesFile`. -/
def parseProps (content : String) : List (String × String) :=
  (splitStr content "\n").foldl
    (fun acc line =>
      let line := trimStr line
      if line = "" ∨ startsWithStr line "#" then acc
      else match splitKV line with
        | some (k, v) => upsertS k v acc
        | none => acc)
    []

/-- Models readPropertiesFile: throws when no server is selected, returns the
empty record when the file is absent (or not plain text). -/
def readPropertiesFile (w : World) : Except String (List (String × String)) :=
  if w.mc.serverDir = [] then .error "No server selected."
  else match w.fs.lookupFile (w.mc.serverDir ++ ["server.properties"]) with
    | some (.text content) => .ok (parseProps content)
    | _ => .ok []

/-- Models getProperty: default when no directory is selected, on a throw, or
when the key is missing. -/
def getProperty (key defaultVal : String) (w : World) : String :=
  if w.mc.serverDir = [] then defaultVal
  else match readPropertiesFile w with
    | .ok props => ((props.find? (fun e => e.1 = key)).map (·.2)).getD defaultVal
    | .error _ => defaultVal

/-- Models getPublicInfo from minecraft.ts. -/
def getPublicInfo (w : World) : PublicServerInfo :=
  { name := (w.mc.config.map (·.name)).getD "Unconfigured Server"
    motd := getProperty "motd" "A Laplace Server" w
    status := w.mc.status
    version := "Latest"
    coreType := match w.mc.config with
      | some c => detectCoreType c.jarFile
      | none => "Unknown"
    playersOnline := w.mc.onlinePlayers.length
    playersMax := parseIntNat (getProperty "max-players" "20" w)
    playersList := w.mc.onlinePlayers
    lastUpdated := w.mc.now }

/-- Models updatePublicFile: best-effort atomic write of the public snapshot
next to the servers directory; every failure is swallowed by the source
(empty catch), so the write is modeled with the succeeding outcome. -/
def updatePublicFile (w : World) : World :=
  let publicPath := joinOne w.mc.serversDir ".." ++ ["laplace.public.json"]
  let (_, fs2) := writeJsonAtomic .ok publicPath (.pub (getPublicInfo w)) w.fs
  { w with fs := fs2 }

/-! ## Lifecycle state machine -/

/-- Models startStatusPoller (interval creation). -/
def startStatusPoller (mc : MCState) : MCState := { mc with pollerActive := true }

/-- Models stopStatusPoller (interval teardown). -/
def stopStatusPoller (mc : MCState) : MCState := { mc with pollerActive := false }

/-- Models updateState: set status, emit, refresh the public file, and manage
the status poller. -/
def updateState (newState : Status) (w : World) : World :=
  let w := { w with mc := { w.mc with status := newState } }
  let w := updatePublicFile w
  if newState = .ONLINE then { w with mc := startStatusPoller w.mc }
  else if newState = .OFFLINE ∨ newState = .CRASHED ∨ newState = .STOPPING then
    { w with mc := stopStatusPoller w.mc }
  else w

/-- Models selectServer: check the server directory and descriptor file exist,
parse the descriptor (a stored non-descriptor file models a JSON.parse
failure), set config and serverDir. -/
def selectServer (serverId : String) (w : World) : Except String Unit × World :=
  let serverPath := w.mc.serversDir ++ [serverId]
  if ¬ w.fs.existsSync serverPath then (.error "Server ID not found", w)
  else
    let configPath := serverPath ++ ["laplace.server.json"]
    if ¬ w.fs.existsSync configPath then (.error "Server configuration corrupted", w)
    else match w.fs.lookupFile configPath with
      | some (.conf c) =>
        (.ok (), { w with mc := { w.mc with config := some c, serverDir := serverPath } })
      | _ => (.error "Failed to parse server config", w)

/-- Models spawnProcess.  Here `spawnOk` is the environment: whether the java
process launches (false covers both the synchronous spawn exception and
the async error event, which both log a fatal line and move to CRASHED
with startTime cleared). -/
def spawnProcess (spawnOk : Bool) (w : World) : World :=
  match w.mc.config with
  | none => w
  | some c =>
    let w := updateState .STARTING w
    let w := logSystem ("Booting core: " ++ c.name ++ "...") w
    let jarPath := w.mc.serverDir ++ [c.jarFile]
    if ¬ w.fs.existsSync jarPath then
      let w := logError ("FATAL: Server jar not found at " ++ pathToString jarPath) w
      updateState .CRASHED w
    else
      let w := { w with mc := { w.mc with startTime := some w.mc.now } }
      if spawnOk then { w with mc := { w.mc with process := true } }
      else
        let w := logError "FATAL: Failed to spawn Java process. Is Java installed?" w
        let w := updateState .CRASHED w
        { w with mc := { w.mc with startTime := none } }

/-- Models loadAndStart: the public start operation. -/
def loadAndStart (serverId actor : String) (spawnOk : Bool) (w : World) :
    Except String Unit × World :=
  if w.mc.status ≠ .OFFLINE ∧ w.mc.status ≠ .CRASHED then
    (.error "Server is already running or busy", w)
  else match selectServer serverId w with
    | (.error e, w2) => (.error e, w2)
    | (.ok _, w2) =>
      let w2 := { w2 with mc := { w2.mc with crashCount := 0, intentionToStop := false } }
      let w2 := updateState .STARTING w2
      let w2 := logSystem ("[System] Start command received from user: " ++ actor) w2
      (.ok (), spawnProcess spawnOk w2)

/-- Models the autoRestart test of handleCrash (undefined is treated as
enabled): true when no descriptor is
selected (undefined is not false), else the flag itself. -/
def autoRestartEnabled (mc : MCState) : Bool :=
  match mc.config with
  | none => true
  | some c => c.autoRestart

/-- Models handleCrash: bump the crash counter; when within budget and
auto-restart is enabled, schedule a respawn (returned boolean). -/
def handleCrash (w : World) : World × Bool :=
  let w := { w with mc := { w.mc with crashCount := w.mc.crashCount + 1 } }
  if w.mc.crashCount ≤ 3 ∧ autoRestartEnabled w.mc then
    (logError ("Server crashed! Auto-restarting (" ++ toString w.mc.crashCount ++ "/3) in 5s...") w,
     true)
  else
    (logError "Max crash attempts reached. Manual intervention required." w, false)

/-- Models cleanup: stop the poller, tear down the RCON session (errors
swallowed), clear the process handle and start time. -/
def cleanup (mc : MCState) : MCState :=
  { stopStatusPoller mc with rcon := false, process := false, startTime := none }

/-- The `close` handler installed by spawnProcess, fired when the
subprocess exits with the given code.  The boolean reports whether an
automatic respawn was scheduled. -/
def processClose (code : Int) (w : World) : World × Bool :=
  let w := logSystem ("Process exited with code " ++ toString code) w
  let w := { w with mc := cleanup w.mc }
  if ¬ w.mc.intentionToStop ∧ w.mc.status ≠ .RESTARTING ∧
      code ≠ 0 ∧ code ≠ 130 ∧ code ≠ 143 then
    handleCrash (updateState .CRASHED w)
  else if w.mc.status ≠ .RESTARTING then (updateState .OFFLINE w, false)
  else (w, false)

/-- The respawn timer body scheduled by handleCrash:
`if (!this.intentionToStop) this.spawnProcess()`. -/
def respawnFire (spawnOk : Bool) (w : World) : World :=
  if w.mc.intentionToStop then w else spawnProcess spawnOk w

/-- Verification helper: one unintended exit (a nonzero, non-signal code)
followed, when a respawn was scheduled, by the timer firing. -/
def crashRound (spawnOk : Bool) (w : World) : World × Bool :=
  let (w1, sched) := processClose 1 w
  (if sched then respawnFire spawnOk w1 else w1, sched)

/-- Models connectRcon: retry the authenticated connect after a fixed 3s
delay, stopping at the `attempts > 5` guard.  `connOk i` tells whether
the i-th attempt succeeds.  The fuel argument only keeps the recursion
structural (so that concrete runs evaluate); any fuel above the at most
6 remaining attempts, such as 7 at attempts 0, behaves as the source,
whose recursion terminates through the guard alone.  The second
component counts connection attempts performed. -/
def connectRcon (connOk : Nat → Bool) : Nat → Nat → World → World × Nat
  | 0, _, w => (w, 0)
  | fuel + 1, attempts, w =>
    if w.mc.rcon ∨ w.mc.config = none then (w, 0)
    else if attempts > 5 then (w, 0)
    else
      match w.mc.config with
      | none => (w, 0)
      | some _c =>
        if connOk attempts then
          (logSystem "RCON channel established." { w with mc := { w.mc with rcon := true } }, 1)
        else
          let w2 := if attempts > 2 then
              logError ("RCON connection retry (" ++ toString attempts ++ "/5)...") w
            else w
          let r := connectRcon connOk fuel (attempts + 1) w2
          (r.1, r.2 + 1)

/-- Models executeCommand: reject when not active; log the command; over a
connected RCON session send it (sendRes is the environment response) and
strip color codes from the response; otherwise fall back to the process
stdin; otherwise no interface.  The stdin write is modeled as succeeding. -/
def executeCommand (sendRes : Except String String) (actor cmd : String) (w : World) :
    Except String String × World :=
  if w.mc.status ≠ .ONLINE ∧ w.mc.status ≠ .STARTING then
    (.error "Server not active. Start it first.", w)
  else
    let w := log ("[" ++ actor ++ "] /" ++ cmd) .info w
    if w.mc.rcon then
      match sendRes with
      | .ok response => (.ok (stripColorCodesS response), w)
      | .error msg => (.error msg, logError ("RCON Error: " ++ msg) w)
    else if w.mc.process then
      (.ok "Command sent to process stdin (RCON unavailable).", w)
    else (.error "No execution interface available.", w)

/-! ## Backup / restore manager -/

/-- Stable insertion sort (JavaScript Array.sort is stable; a comparator
is modeled by its induced boolean "may stay before" relation). -/
def insertSorted {α : Type} (le : α → α → Bool) (x : α) : List α → List α
  | [] => [x]
  | y :: ys => if le x y then x :: y :: ys else y :: insertSorted le x ys

/-- Stable sort by the given relation. -/
def insertionSortBy {α : Type} (le : α → α → Bool) : List α → List α
  | [] => []
  | x :: xs => insertSorted le x (insertionSortBy le xs)

/-- The backups root next to the servers directory, keyed by the active
descriptor id (`this.config?.id || \x27unknown\x27`). -/
def backupDirPath (w : World) : FPath :=
  let idPart := match w.mc.config with
    | some c => if c.id = "" then "unknown" else c.id
    | none => "unknown"
  w.mc.serversDir.dropLast ++ ["backups", idPart]

/-- Models getBackupDir: the backups root, created when missing. -/
def getBackupDir (w : World) : FPath × World :=
  let backupDir := backupDirPath w
  if ¬ w.fs.existsSync backupDir then
    (backupDir, { w with fs := w.fs.mkdirp backupDir w.mc.now })
  else (backupDir, w)

/-- Models createBackup: reject without a loaded server or outside OFFLINE;
snapshot the working tree (excluding session.lock paths) under a name
built from the sanitized label and timestamp.  The copy is modeled as
succeeding (its failure path only logs and rethrows the fs error). -/
def createBackup (actor : String) (name : Option String) (w : World) :
    Except String Unit × World :=
  if w.mc.serverDir = [] ∨ w.mc.config = none then (.error "No server loaded", w)
  else if w.mc.status ≠ .OFFLINE then
    (.error "Server must be OFFLINE to create a backup.", w)
  else
    let w := logSystem ("[Backup] Process started by user: " ++ actor) w
    let timestamp := sanitizeTs w.mc.nowIso
    let backupName := match name with
      | some n => if n = "" then "backup-" ++ timestamp else sanitizeName n ++ "-" ++ timestamp
      | none => "backup-" ++ timestamp
    let (bdir, w) := getBackupDir w
    let targetDir := bdir ++ [backupName]
    let filt := fun q => ¬ pathHasPart q "session.lock"
    let w := { w with fs := w.fs.cpSync w.mc.serverDir targetDir filt w.mc.now }
    (.ok (), logSystem ("[Backup] Created snapshot: " ++ backupName) w)

/-- Models deleteBackup: remove one snapshot directory when it exists; silent
otherwise. -/
def deleteBackup (actor id : String) (w : World) : Except String Unit × World :=
  let (bdir, w) := getBackupDir w
  let dir := bdir ++ [id]
  if w.fs.existsSync dir then
    let w := { w with fs := w.fs.rmRec dir }
    (.ok (), logSystem ("[Backup] Snapshot \x27" ++ id ++ "\x27 deleted by user: " ++ actor) w)
  else (.ok (), w)

/-- Models restoreBackup: reject outside OFFLINE or when the snapshot is
missing; wipe every entry of the working directory, then copy the
snapshot tree in. -/
def restoreBackup (actor id : String) (w : World) : Except String Unit × World :=
  if w.mc.status ≠ .OFFLINE then (.error "Server must be OFFLINE to restore.", w)
  else
    let (bdir, w) := getBackupDir w
    let backupSource := bdir ++ [id]
    if ¬ w.fs.existsSync backupSource then (.error "Backup not found", w)
    else
      let w := logSystem ("[Restore] Process initiated by user: " ++ actor) w
      let w := logSystem ("[Restore] Restoring from " ++ id ++ "...") w
      let dir := w.mc.serverDir
      let entries := w.fs.readdirSync dir
      let w := { w with fs := entries.foldl (fun fs f => fs.rmRec (dir ++ [f])) w.fs }
      let w := { w with fs := w.fs.cpSync backupSource dir (fun _ => true) w.mc.now }
      (.ok (), logSystem "[Restore] Completed." w)

/-! ## Instance creation and deletion -/

/-- types.ts ServerCreationParams; the uploaded jar is a path in the
model filesystem. -/
structure ServerCreationParams where
  name : String
  sourceJarPath : FPath
  port : Nat
  maxPlayers : Nat
  motd : String
  xmx : String
  xms : String
  eulaAccepted : Bool
  deriving DecidableEq, Repr

/-- Models the or-default idiom on strings (JavaScript falsy default). -/
def orDefault (x d : String) : String := if x = "" then d else x

/-- The generated server.properties content of createServer. -/
def propsContent (p : ServerCreationParams) (rconPwd : String) : String :=
  String.intercalate "\n"
    ["#Minecraft server properties", "#Created by Laplace Panel",
     "server-port=" ++ toString p.port, "enable-rcon=true", "rcon.port=25575",
     "rcon.password=" ++ rconPwd, "max-players=" ++ toString p.maxPlayers,
     "motd=" ++ p.motd, "online-mode=true", "view-distance=10"]

/-- The catch block of createServer: remove a mostly-empty partially
created directory, log, rethrow. -/
def createServerCatch (e : String) (serverPath : FPath) (w : World) :
    Except String String × World :=
  let fs := if w.fs.existsSync serverPath ∧ (w.fs.readdirSync serverPath).length < 3 then
      w.fs.rmRec serverPath
    else w.fs
  let w := logError ("[Creation Failed] " ++ e) { w with fs := fs }
  (.error e, w)

/-- Models createServer: check the uploaded core exists, derive the slug id,
reject when a directory with that id exists, then materialize the
instance directory, properties, descriptor (atomic write, outcome `o`),
and select it.  `rconPwd` is the random credential from crypto. -/
def createServer (o : WriteOutcome) (rconPwd : String) (p : ServerCreationParams)
    (w : World) : Except String String × World :=
  if ¬ w.fs.existsSync p.sourceJarPath then
    (.error ("Core file not found at: " ++ pathToString p.sourceJarPath), w)
  else
    let serverId := slugify p.name
    let serverPath := w.mc.serversDir ++ [serverId]
    if w.fs.existsSync serverPath then
      (.error ("Server ID \x27" ++ serverId ++ "\x27 already exists. Please choose a different name."), w)
    else
      let fs := w.fs.mkdirp serverPath w.mc.now
      let fs := fs.copyFileSync p.sourceJarPath (serverPath ++ ["server.jar"])
      let fs := if p.eulaAccepted then fs.writeFile (serverPath ++ ["eula.txt"]) (.text "eula=true")
        else fs
      let fs := fs.writeFile (serverPath ++ ["server.properties"]) (.text (propsContent p rconPwd))
      let config : ServerConfig :=
        { id := serverId, name := p.name, jarFile := "server.jar",
          javaArgs := { xmx := orDefault p.xmx "4G", xms := orDefault p.xms "1G", args := "" },
          rconPort := 25575, rconPassword := some rconPwd, autoRestart := true,
          created := w.mc.now }
      match writeJsonAtomic o (serverPath ++ ["laplace.server.json"]) (.conf config) fs with
      | (.error e, fs2) => createServerCatch e serverPath { w with fs := fs2 }
      | (.ok _, fs2) =>
        let w := { w with fs := fs2 }
        let w := logSystem ("[System] Server \x27" ++ p.name ++ "\x27 created successfully (ID: " ++ serverId ++ ").") w
        match selectServer serverId w with
        | (.ok _, w2) => (.ok serverId, w2)
        | (.error e, w2) => createServerCatch e serverPath w2

/-- Retention policies of deleteServer. -/
inductive BackupAction where
  | DELETE_ALL | KEEP_ALL | KEEP_LATEST
  deriving DecidableEq, Repr

/-- Models deleteServer: reject a missing id, reject deleting the active
server while not OFFLINE; apply the backup retention policy; remove the
server files; when the active server was deleted, clear the selection. -/
def deleteServer (serverId : String) (backupAction : BackupAction) (w : World) :
    Except String Unit × World :=
  let targetDir := w.mc.serversDir ++ [serverId]
  if ¬ w.fs.existsSync targetDir then (.error "Server ID not found.", w)
  else if w.mc.config.map (·.id) = some serverId ∧ w.mc.status ≠ .OFFLINE then
    (.error "Cannot delete the active server while it is running. Stop it first.", w)
  else
    let backupsDir := w.mc.serversDir.dropLast ++ ["backups", serverId]
    let w :=
      if w.fs.existsSync backupsDir then
        match backupAction with
        | .DELETE_ALL =>
          let w := logSystem ("[Delete] Removing all backups for " ++ serverId ++ "...") w
          { w with fs := w.fs.rmRec backupsDir }
        | .KEEP_LATEST =>
          let w := logSystem ("[Delete] Pruning backups for " ++ serverId ++ " (Keeping latest)...") w
          let backups := insertionSortBy (fun a b => b.2 ≤ a.2)
            ((w.fs.readdirSync backupsDir).map
              (fun f => (backupsDir ++ [f], w.fs.birthOf (backupsDir ++ [f]))))
          { w with fs := (backups.drop 1).foldl (fun fs b => fs.rmRec b.1) w.fs }
        | .KEEP_ALL => w
      else w
    let w := logSystem ("[Delete] Removing server files for " ++ serverId ++ "...") w
    let w := { w with fs := w.fs.rmRec targetDir }
    if w.mc.config.map (·.id) = some serverId then
      (.ok (), { w with mc := { w.mc with config := none, serverDir := [], logs := [] } })
    else (.ok (), w)

/-! ## Settings persistence -/

/-- types.ts ServerSettingsPayload (properties as an insertion-ordered
record). -/
structure ServerSettingsPayload where
  config : ServerConfig
  properties : List (String × String)
  deriving DecidableEq, Repr

/-- Models the object spread merge of saveSettings: every required field
of the payload overrides;
the optional rconPassword survives from the old descriptor when the
payload omits it. -/
def mergeConfig (old new : ServerConfig) : ServerConfig :=
  { new with rconPassword := match new.rconPassword with
      | some p => some p
      | none => old.rconPassword }

/-- Models writePropertiesFile: regenerate the header and every key=value
line (serverDir assumed selected by the caller, as in saveSettings). -/
def writePropertiesFile (props : List (String × String)) (w : World) : World :=
  let content := props.foldl (fun acc kv => acc ++ kv.1 ++ "=" ++ kv.2 ++ "\n")
    "# Minecraft server properties\n# Edited by Laplace Panel\n"
  { w with fs := w.fs.writeFile (w.mc.serverDir ++ ["server.properties"]) (.text content) }

/-- Models saveSettings: merge the descriptor, persist it atomically (outcome
`o`), rewrite the properties file, log, refresh the public snapshot. -/
def saveSettings (o : WriteOutcome) (actor : String) (data : ServerSettingsPayload)
    (w : World) : Except String Unit × World :=
  if w.mc.serverDir = [] ∨ w.mc.config = none then (.error "No server loaded", w)
  else
    let merged := match w.mc.config with
      | some old => mergeConfig old data.config
      | none => data.config
    let w := { w with mc := { w.mc with config := some merged } }
    match writeJsonAtomic o (w.mc.serverDir ++ ["laplace.server.json"]) (.conf merged) w.fs with
    | (.error e, fs2) => (.error e, { w with fs := fs2 })
    | (.ok _, fs2) =>
      let w := { w with fs := fs2 }
      let w := writePropertiesFile data.properties w
      let w := logSystem ("[Config] Server configuration updated by user: " ++ actor) w
      (.ok (), updatePublicFile w)

/-! ## Player roster aggregation -/

/-- A manager user as seen by the aggregator (id, username, and the
externalIds.minecraft link). -/
structure ManagerUser where
  id : String
  username : String
  minecraftId : Option String
  deriving DecidableEq, Repr

/-- The fixed on-disk sources read at the top of getPlayers: the four
identity lists (each entry a uuid/name pair, as produced by readJsonSafe
on usercache.json, ops.json, banned-players.json, whitelist.json), the
laplace.players.json meta map, and the user store. -/
structure RosterSources where
  userCache : List (String × String)
  ops : List (String × String)
  banned : List (String × String)
  whitelist : List (String × String)
  laplaceMeta : List (String × String)
  users : List ManagerUser
  deriving DecidableEq, Repr

/-- A player record (types.ts Player); meta is the raw blob keyed by
uuid, linkedUser the (id, username) of a linked manager user. -/
structure Player where
  uuid : String
  name : String
  lastLogin : Nat
  isOnline : Bool
  isOp : Bool
  isBanned : Bool
  isWhitelisted : Bool
  source : String
  avatarUrl : String
  meta : Option String
  linkedUser : Option (String × String)
  deriving DecidableEq, Repr

/-- The fresh record built by getOrInit for an unseen uuid. -/
def initPlayer (src : RosterSources) (uuid name : String) : Player :=
  let linked := src.users.find? (fun u => u.minecraftId = some uuid)
  { uuid := uuid, name := name, lastLogin := 0, isOnline := false, isOp := false,
    isBanned := false, isWhitelisted := false, source := "cache",
    avatarUrl := "https://minotar.net/helm/" ++ name ++ "/100.png",
    meta := (src.laplaceMeta.find? (fun e => e.1 = uuid)).map (·.2),
    linkedUser := linked.map (fun u => (u.id, u.username)) }

/-- Models getOrInit of getPlayers followed by a field mutation `f` on the
returned record; the map keeps insertion order (JavaScript Map). -/
def getOrInitThen (src : RosterSources) (uuid name : String) (f : Player → Player) :
    List (String × Player) → List (String × Player)
  | [] => [(uuid, f (initPlayer src uuid name))]
  | (k, p) :: rest =>
    if k = uuid then (k, f p) :: rest
    else (k, p) :: getOrInitThen src uuid name f rest

/-- The four static-source passes of getPlayers. -/
def buildRoster (src : RosterSources) : List (String × Player) :=
  let m := src.userCache.foldl
    (fun m e => getOrInitThen src e.1 e.2 (fun p => { p with source := "cache" }) m) []
  let m := src.ops.foldl
    (fun m e => getOrInitThen src e.1 e.2 (fun p => { p with isOp := true }) m) m
  let m := src.banned.foldl
    (fun m e => getOrInitThen src e.1 e.2 (fun p => { p with isBanned := true }) m) m
  src.whitelist.foldl
    (fun m e => getOrInitThen src e.1 e.2 (fun p => { p with isWhitelisted := true }) m) m

/-- Mark the first record whose name matches case-insensitively as
online now; report whether one was found. -/
def markOnline (now : Nat) (nm : String) :
    List (String × Player) → List (String × Player) × Bool
  | [] => ([], false)
  | (k, p) :: rest =>
    if lowerStr p.name = lowerStr nm then
      ((k, { p with isOnline := true, lastLogin := now }) :: rest, true)
    else
      let (rest2, found) := markOnline now nm rest
      ((k, p) :: rest2, found)

/-- The synthesized record for a live-only name. -/
def tempPlayer (now : Nat) (nm : String) : Player :=
  { uuid := "online-" ++ nm, name := nm, lastLogin := now, isOnline := true,
    isOp := false, isBanned := false, isWhitelisted := false, source := "rcon",
    avatarUrl := "https://minotar.net/helm/" ++ nm ++ "/100.png",
    meta := none, linkedUser := none }

/-- Apply the live names to the map as in the rcon branch of getPlayers. -/
def applyLiveNames (now : Nat) (names : List String) (m : List (String × Player)) :
    List (String × Player) :=
  names.foldl
    (fun m nm =>
      let (m2, found) := markOnline now nm m
      if found then m2 else m2 ++ [("online-" ++ nm, tempPlayer now nm)])
    m

/-- The comparator of the final sort, as a stable "may stay before"
relation: online records first, then descending lastLogin. -/
def playerLE (a b : Player) : Bool :=
  if a.isOnline ≠ b.isOnline then a.isOnline else b.lastLogin ≤ a.lastLogin

/-- Models getPlayers: merge the static sources, run the live query when
ONLINE with a connected session (liveRes is the environment response of
`rcon.send(\x27list\x27)`; an error is swallowed), refresh the public
snapshot, and return the sorted roster. -/
def getPlayers (src : RosterSources) (liveRes : Except String String) (w : World) :
    List Player × World :=
  if w.mc.serverDir = [] then ([], w)
  else
    let m := buildRoster src
    let w := { w with mc := { w.mc with onlinePlayers := [] } }
    let (m, w) :=
      if w.mc.status = .ONLINE ∧ w.mc.rcon then
        match liveRes with
        | .error _ => (m, w)
        | .ok list =>
          if strContains list "online:" then
            let parts := splitStr list "online:"
            if parts.length > 1 ∧ ((trimStr (parts.getD 1 "")).length > 0) then
              let onlineNames := ((splitStr (parts.getD 1 "") ",").map trimStr).filter
                (fun n => n.length > 0)
              let w := { w with mc := { w.mc with onlinePlayers := onlineNames } }
              (applyLiveNames w.mc.now onlineNames m, w)
            else (m, w)
          else (m, w)
      else (m, w)
    let w := updatePublicFile w
    (insertionSortBy playerLE (m.map (·.2)), w)

/-! ## Concrete fixtures used to evaluate the development -/

/-- A sample instance descriptor with auto-restart enabled. -/
def cAlpha : ServerConfig :=
  { id := "alpha", name := "Alpha", jarFile := "server.jar",
    javaArgs := { xmx := "4G", xms := "1G", args := "" },
    rconPort := 25575, rconPassword := some "pw", autoRestart := true, created := 0 }

/-- A filesystem with one installed instance `alpha` (descriptor and jar). -/
def fs0 : FS :=
  { dirs := [(["data"], 0), (["data","servers"], 0), (["data","servers","alpha"], 0)],
    files := [(["data","servers","alpha","laplace.server.json"], .conf cAlpha),
              (["data","servers","alpha","server.jar"], .text "jarbytes")] }

/-- Baseline OFFLINE supervisor state with nothing selected. -/
def mcBase : MCState :=
  { process := false, rcon := false, config := none, serverDir := [], logs := [],
    status := .OFFLINE, crashCount := 0, intentionToStop := false,
    serversDir := ["data","servers"], onlinePlayers := [], startTime := none,
    pollerActive := false, now := 1000, nowIso := "2026-10-12T00:00:00.000Z" }

/-- The supervisor state of a running instance alpha. -/
def mcOnline : MCState :=
  { mcBase with status := .ONLINE, config := some cAlpha,
                serverDir := ["data","servers","alpha"], process := true }

/-- A running (ONLINE) world with alpha selected and a live process. -/
def wOnline : World := { mc := mcOnline, fs := fs0 }

/-- wOnline with a second installed instance `beta` on disk. -/
def wOnlineBeta : World :=
  { wOnline with fs :=
    { dirs := fs0.dirs ++ [(["data","servers","beta"], 0)],
      files := fs0.files ++ [(["data","servers","beta","laplace.server.json"],
        .conf { cAlpha with id := "beta", name := "Beta" })] } }

/-- A clean world for instance creation: empty servers directory and an
uploaded core jar. -/
def wClean : World :=
  { mc := mcBase,
    fs := { dirs := [(["data"], 0), (["data","servers"], 0), (["upload"], 0)],
            files := [(["upload","core.jar"], .text "corebytes")] } }

/-- Creation parameters with the display name from the specification. -/
def pMyTest : ServerCreationParams :=
  { name := "My Test!", sourceJarPath := ["upload","core.jar"], port := 25565,
    maxPlayers := 20, motd := "hi", xmx := "4G", xms := "1G", eulaAccepted := true }

/-- Same parameters under a name whose slug collides with pMyTest. -/
def pMyTest2 : ServerCreationParams := { pMyTest with name := "My Test?" }

/-- Same parameters under a name with a fresh slug. -/
def pOther : ServerCreationParams := { pMyTest with name := "Other" }

/-- The world after the first successful creation. -/
def wAfterFirst : World := (createServer .ok "pw1" pMyTest wClean).2

/-- An ONLINE world with a connected RCON session. -/
def wRconOn : World := { wOnline with mc := { wOnline.mc with rcon := true } }

/-- Roster sources with one cached player who is also an operator. -/
def srcSample : RosterSources :=
  { userCache := [("u1", "Steve")], ops := [("u1", "Steve")], banned := [],
    whitelist := [("u2", "Alex")], laplaceMeta := [("u1", "m")],
    users := [{ id := "mgr", username := "root", minecraftId := some "u1" }] }

/-- An OFFLINE world with the alpha descriptor selected (connectRcon
needs a selected descriptor and no session). -/
def wConf : World :=
  { mc := { mcBase with config := some cAlpha, serverDir := ["data","servers","alpha"] },
    fs := fs0 }

/-! ## General lemmas -/

theorem upsertF_find_ne (k q : FPath) (v : FData) (l : List (FPath × FData)) (h : q ≠ k) :
    (upsertF k v l).find? (fun e => e.1 = q) = l.find? (fun e => e.1 = q) := by
  induction l with
  | nil => simp [upsertF, List.find?, Ne.symm h]
  | cons hd tl ih =>
    obtain ⟨k0, v0⟩ := hd
    by_cases hk : k0 = k
    · simp only [upsertF, if_pos hk]
      rw [List.find?_cons_of_neg _ (by simp [Ne.symm h]),
          List.find?_cons_of_neg _ (by simp [hk, Ne.symm h])]
    · simp only [upsertF, if_neg hk]
      by_cases hq : k0 = q
      · rw [List.find?_cons_of_pos _ (by simp [hq]), List.find?_cons_of_pos _ (by simp [hq])]
      · rw [List.find?_cons_of_neg _ (by simp [hq]), List.find?_cons_of_neg _ (by simp [hq]), ih]

theorem lookupFile_writeFile_ne (fs : FS) (p q : FPath) (d : FData) (h : q ≠ p) :
    (fs.writeFile p d).lookupFile q = fs.lookupFile q := by
  simp [FS.writeFile, FS.lookupFile, upsertF_find_ne p q d fs.files h]

theorem tmpPath_ne (p : FPath) (h : p ≠ []) : tmpPath p ≠ p := by
  rcases List.eq_nil_or_concat p with hnil | ⟨q, a, hp⟩
  · exact absurd hnil h
  · subst hp
    rw [List.concat_eq_append]
    intro heq
    have h1 : tmpPath (q ++ [a]) = q ++ [a ++ ".tmp"] := by
      simp [tmpPath]
    rw [h1] at heq
    have h2 : [a ++ ".tmp"] = [a] := (List.append_cancel_left_eq q _ _).mp heq
    have h3 : a ++ ".tmp" = a := by injection h2
    have h4 : (a ++ ".tmp").length = a.length := by rw [h3]
    have hl : ".tmp".length = 4 := rfl
    rw [String.length_append, hl] at h4
    omega

/-! ## Claim C1 -/

/-- Claim C1: for every state S outside OFFLINE and CRASHED, loadAndStart
is rejected with the lifecycle-precondition error and the whole object
state (lifecycle state, selected descriptor, crash counter, stop-intent
flag) is unchanged by the rejected call. -/
theorem start_rejected_when_active (w : World) (sid actor : String) (spawnOk : Bool)
    (h1 : w.mc.status ≠ .OFFLINE) (h2 : w.mc.status ≠ .CRASHED) :
    loadAndStart sid actor spawnOk w = (.error "Server is already running or busy", w) ∧
    (loadAndStart sid actor spawnOk w).2.mc.status = w.mc.status ∧
    (loadAndStart sid actor spawnOk w).2.mc.config = w.mc.config ∧
    (loadAndStart sid actor spawnOk w).2.mc.crashCount = w.mc.crashCount ∧
    (loadAndStart sid actor spawnOk w).2.mc.intentionToStop = w.mc.intentionToStop := by
  have key : loadAndStart sid actor spawnOk w = (.error "Server is already running or busy", w) := by
    unfold loadAndStart
    rw [if_pos ⟨h1, h2⟩]
  exact ⟨key, by rw [key], by rw [key], by rw [key], by rw [key]⟩

/-- Witness for C1 at a concrete ONLINE world. -/
theorem start_rejected_when_active_witness :
    wOnline.mc.status ≠ Status.OFFLINE ∧ wOnline.mc.status ≠ Status.CRASHED ∧
    loadAndStart "alpha" "admin" true wOnline =
      (.error "Server is already running or busy", wOnline) :=
  ⟨by decide, by decide,
   (start_rejected_when_active wOnline "alpha" "admin" true (by decide) (by decide)).1⟩

/-! ## Claim C2 -/

/-- The state before a manual start, with an arbitrary leftover crash
counter and stop-intent flag. -/
def mcPrior (prior : Nat) (stopFlag : Bool) (st : Status) : MCState :=
  { mcBase with crashCount := prior, intentionToStop := stopFlag, status := st }

/-- World for mcPrior over the alpha installation. -/
def wPrior (prior : Nat) (stopFlag : Bool) (st : Status) : World :=
  { mc := mcPrior prior stopFlag st, fs := fs0 }

/-- Manual start followed by the first unintended exit (and the respawn
it schedules). -/
def chain1 (w : World) : World × Bool :=
  crashRound true (loadAndStart "alpha" "admin" true w).2

/-- Second unintended exit. -/
def chain2 (w : World) : World × Bool := crashRound true (chain1 w).1

/-- Third unintended exit. -/
def chain3 (w : World) : World × Bool := crashRound true (chain2 w).1

/-- Fourth unintended exit. -/
def chain4 (w : World) : World × Bool := crashRound true (chain3 w).1

/-- Claim C2: a manual start from OFFLINE or CRASHED succeeds and resets
the crash counter to 0 regardless of its prior value (and of the
leftover stop-intent flag); afterwards, with auto-restart enabled in the
descriptor, a run of 4 consecutive unintended process exits schedules a
respawn on exactly the first three, and the 4th exit leaves the state
CRASHED with no respawn scheduled. -/
theorem crash_budget (prior : Nat) (stopFlag : Bool) (st : Status)
    (hst : st = Status.OFFLINE ∨ st = Status.CRASHED) :
    (loadAndStart "alpha" "admin" true (wPrior prior stopFlag st)).1 = .ok () ∧
    (loadAndStart "alpha" "admin" true (wPrior prior stopFlag st)).2.mc.crashCount = 0 ∧
    (chain1 (wPrior prior stopFlag st)).2 = true ∧
    (chain2 (wPrior prior stopFlag st)).2 = true ∧
    (chain3 (wPrior prior stopFlag st)).2 = true ∧
    (chain4 (wPrior prior stopFlag st)).2 = false ∧
    (chain4 (wPrior prior stopFlag st)).1.mc.status = Status.CRASHED := by
  rcases hst with h | h <;> subst h
  · have hir : loadAndStart "alpha" "admin" true (wPrior prior stopFlag Status.OFFLINE) =
        loadAndStart "alpha" "admin" true (wPrior 0 false Status.OFFLINE) := rfl
    refine ⟨?_, ?_, ?_, ?_, ?_, ?_, ?_⟩ <;>
      simp only [chain1, chain2, chain3, chain4, hir] <;> decide
  · have hir : loadAndStart "alpha" "admin" true (wPrior prior stopFlag Status.CRASHED) =
        loadAndStart "alpha" "admin" true (wPrior 0 false Status.CRASHED) := rfl
    refine ⟨?_, ?_, ?_, ?_, ?_, ?_, ?_⟩ <;>
      simp only [chain1, chain2, chain3, chain4, hir] <;> decide

/-- Witness for C2 at prior counter 7 and a leftover stop intent,
starting from CRASHED. -/
theorem crash_budget_witness :
    (loadAndStart "alpha" "admin" true (wPrior 7 true Status.CRASHED)).1 = .ok () ∧
    (loadAndStart "alpha" "admin" true (wPrior 7 true Status.CRASHED)).2.mc.crashCount = 0 ∧
    (chain1 (wPrior 7 true Status.CRASHED)).2 = true ∧
    (chain2 (wPrior 7 true Status.CRASHED)).2 = true ∧
    (chain3 (wPrior 7 true Status.CRASHED)).2 = true ∧
    (chain4 (wPrior 7 true Status.CRASHED)).2 = false ∧
    (chain4 (wPrior 7 true Status.CRASHED)).1.mc.status = Status.CRASHED :=
  crash_budget 7 true Status.CRASHED (Or.inr rfl)

/-! ## Claim C3 -/

/-- Claim C3 (amended): with a server loaded, createBackup and
restoreBackup reject with the lifecycle-precondition error whenever the
state is not OFFLINE, leaving the world unchanged; deleteServer rejects
with the lifecycle-precondition error when the target is the currently
selected (active) instance and the state is not OFFLINE.  (Deleting a
non-active instance is not state-gated; see the counterexample.) -/
theorem offline_gate (w : World) (actor nm sid : String) (c : ServerConfig)
    (ba : BackupAction) (name : Option String)
    (hC : w.mc.config = some c) (hD : w.mc.serverDir ≠ [])
    (hS : w.mc.status ≠ Status.OFFLINE)
    (hid : c.id = sid) (hT : w.fs.existsSync (w.mc.serversDir ++ [sid]) = true) :
    createBackup actor name w = (.error "Server must be OFFLINE to create a backup.", w) ∧
    restoreBackup actor nm w = (.error "Server must be OFFLINE to restore.", w) ∧
    deleteServer sid ba w =
      (.error "Cannot delete the active server while it is running. Stop it first.", w) := by
  refine ⟨?_, ?_, ?_⟩
  · unfold createBackup
    rw [if_neg (by simp [hC, hD]), if_pos hS]
  · unfold restoreBackup
    rw [if_pos hS]
  · unfold deleteServer
    rw [if_neg (by simp [hT]), if_pos ⟨by simp [hC, hid], hS⟩]

/-- Counterexample for C3 as frozen: with the active instance alpha
ONLINE, deleteServer of the other installed instance beta succeeds
instead of being rejected. -/
theorem delete_nonactive_allowed :
    wOnlineBeta.mc.status ≠ Status.OFFLINE ∧
    (deleteServer "beta" BackupAction.KEEP_ALL wOnlineBeta).1 = .ok () := by
  exact ⟨by decide, by decide⟩

/-- Witness for the amended C3 on the running alpha instance. -/
theorem offline_gate_witness :
    createBackup "admin" (some "b") wOnline =
      (.error "Server must be OFFLINE to create a backup.", wOnline) ∧
    restoreBackup "admin" "b" wOnline = (.error "Server must be OFFLINE to restore.", wOnline) ∧
    deleteServer "alpha" BackupAction.KEEP_ALL wOnline =
      (.error "Cannot delete the active server while it is running. Stop it first.", wOnline) :=
  offline_gate wOnline "admin" "b" "alpha" cAlpha BackupAction.KEEP_ALL (some "b")
    (by decide) (by decide) (by decide) (by decide) (by decide)

/-! ## Claim C4 -/

/-- Claim C4 (amended): the identifier of a created instance is the
lowercased display name with every character outside [a-z0-9] replaced
by a hyphen, so display name "My Test!" yields identifier "my-test-";
while an instance exists, a second createServer call is rejected exactly
when the new name derives the same identifier as an existing instance
directory — a second call whose name derives a fresh identifier is
accepted by createServer (see the counterexample; only the terminal
wizard blocks every second creation). -/
theorem create_server_slug (w : World) (o : WriteOutcome) (pwd : String)
    (p : ServerCreationParams)
    (hjar : w.fs.existsSync p.sourceJarPath = true)
    (hdup : w.fs.existsSync (w.mc.serversDir ++ [slugify p.name]) = true) :
    slugify "My Test!" = "my-test-" ∧
    (createServer .ok "pw1" pMyTest wClean).1 = .ok "my-test-" ∧
    createServer o pwd p w =
      (.error ("Server ID \x27" ++ slugify p.name ++
        "\x27 already exists. Please choose a different name."), w) := by
  refine ⟨by decide, by decide, ?_⟩
  simp [createServer, hjar, hdup]

/-- Counterexample for C4 as frozen: after "My Test!" was created, a
second createServer with the fresh name "Other" succeeds instead of
being rejected. -/
theorem second_create_fresh_name_allowed :
    wAfterFirst.fs.existsSync ["data","servers","my-test-"] = true ∧
    (createServer .ok "pw2" pOther wAfterFirst).1 = .ok "other" := by
  exact ⟨by decide, by decide⟩

/-- Witness for the amended C4: a colliding second name is rejected. -/
theorem create_server_slug_witness :
    slugify "My Test!" = "my-test-" ∧
    (createServer .ok "pw1" pMyTest wClean).1 = .ok "my-test-" ∧
    createServer .ok "pw2" pMyTest2 wAfterFirst =
      (.error ("Server ID \x27" ++ slugify pMyTest2.name ++
        "\x27 already exists. Please choose a different name."), wAfterFirst) :=
  create_server_slug wAfterFirst .ok "pw2" pMyTest2 (by decide) (by decide)

/-! ## Claim C5 -/

theorem log_preserves_fields (m : String) (t : LType) (w : World) :
    (log m t w).mc.rcon = w.mc.rcon ∧ (log m t w).mc.process = w.mc.process ∧
    (log m t w).mc.status = w.mc.status := by
  by_cases h : cleanMessage m = "" <;> simp [log, h]

theorem connectRcon_count_le (connOk : Nat → Bool) :
    ∀ (fuel attempts : Nat) (w : World),
      (connectRcon connOk fuel attempts w).2 ≤ 6 - attempts := by
  intro fuel
  induction fuel with
  | zero => intro attempts w; simp [connectRcon]
  | succ f ih =>
    intro attempts w
    simp only [connectRcon]
    by_cases h1 : w.mc.rcon ∨ w.mc.config = none
    · rw [if_pos h1]; exact Nat.zero_le _
    · rw [if_neg h1]
      by_cases h2 : attempts > 5
      · rw [if_pos h2]; exact Nat.zero_le _
      · rw [if_neg h2]
        match hc : w.mc.config with
        | none => exact Nat.zero_le _
        | some c =>
          simp only []
          by_cases h3 : connOk attempts
          · rw [if_pos h3]
            omega
          · rw [if_neg h3]
            have hrec := ih (attempts + 1)
              (if attempts > 2 then
                logError ("RCON connection retry (" ++ toString attempts ++ "/5)...") w
               else w)
            simp only [] at hrec ⊢
            omega

theorem connectRcon_allfail_rcon (fuel : Nat) :
    ∀ (attempts : Nat) (w : World),
      (connectRcon (fun _ => false) fuel attempts w).1.mc.rcon = w.mc.rcon := by
  induction fuel with
  | zero => intro attempts w; simp [connectRcon]
  | succ f ih =>
    intro attempts w
    simp only [connectRcon]
    by_cases h1 : w.mc.rcon ∨ w.mc.config = none
    · rw [if_pos h1]
    · rw [if_neg h1]
      by_cases h2 : attempts > 5
      · rw [if_pos h2]
      · rw [if_neg h2]
        match hc : w.mc.config with
        | none => rfl
        | some c =>
          simp only [Bool.false_eq_true, if_false]
          by_cases h4 : attempts > 2
          · rw [if_pos h4, ih]
            exact (log_preserves_fields _ _ w).1
          · rw [if_neg h4, ih]

/-- Claim C5 (amended): the control-channel connect loop performs at
most 6 attempts (the source guard `attempts > 5` admits attempt indices
0 through 5, one more than the documented 5; see the counterexample);
when every attempt fails it gives up silently, leaving no session
behind; and an executeCommand call on an ONLINE instance with no
session and a live process falls back to writing the command to the
process stdin instead of failing. -/
theorem rcon_budget_and_fallback (connOk : Nat → Bool) (fuel : Nat) (w wx : World)
    (actor cmd : String) (sendRes : Except String String)
    (hst : wx.mc.status = Status.ONLINE) (hrc : wx.mc.rcon = false)
    (hpr : wx.mc.process = true) :
    (connectRcon connOk fuel 0 w).2 ≤ 6 ∧
    (connectRcon (fun _ => false) fuel 0 w).1.mc.rcon = w.mc.rcon ∧
    (executeCommand sendRes actor cmd wx).1 =
      .ok "Command sent to process stdin (RCON unavailable)." := by
  refine ⟨connectRcon_count_le connOk fuel 0 w, connectRcon_allfail_rcon fuel 0 w, ?_⟩
  unfold executeCommand
  rw [if_neg (by simp [hst])]
  have hp := log_preserves_fields ("[" ++ actor ++ "] /" ++ cmd) .info wx
  rw [if_neg (by rw [hp.1, hrc]; exact Bool.false_ne_true), if_pos (by rw [hp.2.1, hpr])]

/-- Counterexample for C5 as frozen: with every connect failing, the
loop performs 6 attempts, not at most 5. -/
theorem rcon_six_attempts :
    (connectRcon (fun _ => false) 7 0 wConf).2 = 6 ∧ ¬ (6 ≤ 5) := by
  exact ⟨by decide, by decide⟩

/-- Witness for the amended C5 on concrete worlds. -/
theorem rcon_budget_and_fallback_witness :
    (connectRcon (fun _ => false) 7 0 wConf).2 ≤ 6 ∧
    (connectRcon (fun _ => false) 7 0 wConf).1.mc.rcon = wConf.mc.rcon ∧
    (executeCommand (.ok "resp") "admin" "list" wOnline).1 =
      .ok "Command sent to process stdin (RCON unavailable)." :=
  rcon_budget_and_fallback (fun _ => false) 7 wConf wOnline "admin" "list" (.ok "resp")
    (by decide) (by decide) (by decide)

/-! ## Claim C6 -/

/-- Claim C6 (code bug): executeCommand does not strip the section-sign
color code from a control-channel response.  The regex literal on line
495 of minecraft.ts holds U+0E22 U+0E07 — the UTF-8 bytes of the section
sign read back under a Thai codepage — instead of the section sign
U+00A7, so the response with a real color code comes back unchanged
where the specification requires it stripped; only the mojibake-prefixed
form is stripped. -/
theorem color_codes_not_stripped :
    (executeCommand (.ok "§aHello") "admin" "say hi" wRconOn).1 = .ok "§aHello" ∧
    stripColorCodesS "§aHello" = "§aHello" ∧
    stripColorCodesS (String.mk (mojiA :: mojiB :: 'a' :: "Hello".data)) = "Hello" := by
  exact ⟨by decide, by decide, by decide⟩

/-! ## Claim C7 -/

theorem writeJsonAtomic_fail (o : WriteOutcome) (m : String) (p : FPath) (d : FData)
    (fs : FS) (hm : o.failMsg = some m) (hp : p ≠ []) :
    (writeJsonAtomic o p d fs).1 = .error m ∧
    (writeJsonAtomic o p d fs).2.lookupFile p = fs.lookupFile p := by
  rcases o with _ | ⟨msg, part⟩ | msg
  · simp [WriteOutcome.failMsg] at hm
  · have hmm : msg = m := by simpa [WriteOutcome.failMsg] using hm
    subst hmm
    refine ⟨rfl, ?_⟩
    cases part with
    | none => rfl
    | some dd =>
      exact lookupFile_writeFile_ne fs (tmpPath p) p dd (Ne.symm (tmpPath_ne p hp))
  · have hmm : msg = m := by simpa [WriteOutcome.failMsg] using hm
    subst hmm
    exact ⟨rfl, lookupFile_writeFile_ne fs (tmpPath p) p d (Ne.symm (tmpPath_ne p hp))⟩

/-- Claim C7: structured state is persisted through writeJsonAtomic (the
write-to-sibling-temporary-then-rename path; saveSettings persists the
descriptor through it); when that write fails — whether the temporary
write or the rename fails — the filesystem error is propagated to the
caller unchanged, and the target file keeps its previous content, both
at the writeJsonAtomic level and through saveSettings for the
descriptor file. -/
theorem atomic_write_failure (o : WriteOutcome) (m : String) (p : FPath) (d : FData)
    (fs : FS) (w : World) (payload : ServerSettingsPayload) (actor : String)
    (c : ServerConfig)
    (hm : o.failMsg = some m) (hp : p ≠ [])
    (hD : w.mc.serverDir ≠ []) (hC : w.mc.config = some c) :
    (writeJsonAtomic o p d fs).1 = .error m ∧
    (writeJsonAtomic o p d fs).2.lookupFile p = fs.lookupFile p ∧
    (saveSettings o actor payload w).1 = .error m ∧
    (saveSettings o actor payload w).2.fs.lookupFile
        (w.mc.serverDir ++ ["laplace.server.json"]) =
      w.fs.lookupFile (w.mc.serverDir ++ ["laplace.server.json"]) := by
  obtain ⟨h1, h2⟩ := writeJsonAtomic_fail o m p d fs hm hp
  have hq : (w.mc.serverDir ++ ["laplace.server.json"]) ≠ [] := by simp
  obtain ⟨h3, h4⟩ := writeJsonAtomic_fail o m (w.mc.serverDir ++ ["laplace.server.json"])
    (.conf (mergeConfig c payload.config)) w.fs hm hq
  have hsave : ∀ r : Except String Unit × World, saveSettings o actor payload w = r →
      r.1 = .error m ∧
      r.2.fs.lookupFile (w.mc.serverDir ++ ["laplace.server.json"]) =
        w.fs.lookupFile (w.mc.serverDir ++ ["laplace.server.json"]) := by
    intro r hr
    unfold saveSettings at hr
    rw [if_neg (by simp [hD, hC])] at hr
    rw [hC] at hr
    dsimp only [] at hr
    rcases hwa : writeJsonAtomic o (w.mc.serverDir ++ ["laplace.server.json"])
        (.conf (mergeConfig c payload.config)) w.fs with ⟨res, fs2⟩
    rw [hwa] at hr h3 h4
    dsimp only [] at h3 h4
    subst h3
    dsimp only [] at hr
    subst hr
    exact ⟨rfl, h4⟩
  exact ⟨h1, h2, (hsave _ rfl).1, (hsave _ rfl).2⟩

/-- Witness for C7: a failing rename propagates its error and leaves the
descriptor file content as it was. -/
theorem atomic_write_failure_witness :
    (writeJsonAtomic (.renameFail "EACCES") ["data","laplace.config.json"] (.text "x") fs0).1 =
      .error "EACCES" ∧
    (writeJsonAtomic (.renameFail "EACCES") ["data","laplace.config.json"] (.text "x") fs0).2.lookupFile
        ["data","laplace.config.json"] =
      fs0.lookupFile ["data","laplace.config.json"] ∧
    (saveSettings (.renameFail "EACCES") "admin"
        { config := cAlpha, properties := [] } wConf).1 = .error "EACCES" ∧
    (saveSettings (.renameFail "EACCES") "admin"
        { config := cAlpha, properties := [] } wConf).2.fs.lookupFile
        (wConf.mc.serverDir ++ ["laplace.server.json"]) =
      wConf.fs.lookupFile (wConf.mc.serverDir ++ ["laplace.server.json"]) :=
  atomic_write_failure (.renameFail "EACCES") "EACCES" ["data","laplace.config.json"]
    (.text "x") fs0 wConf { config := cAlpha, properties := [] } "admin" cAlpha
    (by decide) (by decide) (by decide) (by decide)

/-! ## Claim C8 -/

/-- Claim C8: after every append operation the in-memory log buffer
holds at most MAX_LOGS (500) entries; a message cleaned to emptiness
leaves the buffer unchanged, an append below the cap appends at the
tail, and an append at the cap evicts exactly the oldest (head) entry —
so entries always remain in append order. -/
theorem log_buffer_cap (w : World) (msg : String) (t : LType)
    (hlen : w.mc.logs.length ≤ MAX_LOGS) :
    (log msg t w).mc.logs.length ≤ MAX_LOGS ∧
    (log msg t w).mc.logs =
      (if cleanMessage msg = "" then w.mc.logs
       else if w.mc.logs.length < MAX_LOGS then
         w.mc.logs ++ [{ timestamp := w.mc.nowIso, message := cleanMessage msg, type := t }]
       else
         w.mc.logs.tail ++ [{ timestamp := w.mc.nowIso, message := cleanMessage msg, type := t }]) := by
  unfold log
  dsimp only []
  by_cases h : cleanMessage msg = ""
  · rw [if_pos h, if_pos h]
    exact ⟨hlen, rfl⟩
  · rw [if_neg h, if_neg h]
    dsimp only []
    by_cases h2 : w.mc.logs.length < MAX_LOGS
    · have hno : ¬ ((w.mc.logs ++
          [({ timestamp := w.mc.nowIso, message := cleanMessage msg, type := t } : LogEntry)]).length
            > MAX_LOGS) := by
        simp only [List.length_append, List.length_singleton, gt_iff_lt, not_lt]
        omega
      rw [if_neg hno, if_pos h2]
      refine ⟨?_, rfl⟩
      simp only [List.length_append, List.length_singleton]
      omega
    · have hyes : (w.mc.logs ++
          [({ timestamp := w.mc.nowIso, message := cleanMessage msg, type := t } : LogEntry)]).length
            > MAX_LOGS := by
        simp only [List.length_append, List.length_singleton, gt_iff_lt]
        omega
      have hdrop : List.drop 1 (w.mc.logs ++
          [({ timestamp := w.mc.nowIso, message := cleanMessage msg, type := t } : LogEntry)]) =
          w.mc.logs.tail ++
            [({ timestamp := w.mc.nowIso, message := cleanMessage msg, type := t } : LogEntry)] := by
        have h500 : MAX_LOGS = 500 := rfl
        have h1le : 1 ≤ w.mc.logs.length := by omega
        rw [List.drop_append_of_le_length h1le, List.drop_one]
      rw [if_pos hyes, if_neg h2, hdrop]
      refine ⟨?_, rfl⟩
      have h500 : MAX_LOGS = 500 := rfl
      simp only [List.length_append, List.length_singleton, List.length_tail]
      omega

/-- Witness for C8 at a buffer already holding one entry. -/
theorem log_buffer_cap_witness :
    (({ mc := { mcBase with logs := [{ timestamp := "t0", message := "old", type := .info }] },
        fs := fs0 } : World).mc.logs.length ≤ MAX_LOGS) ∧
    (log "hello" .info
        { mc := { mcBase with logs := [{ timestamp := "t0", message := "old", type := .info }] },
          fs := fs0 }).mc.logs.length ≤ MAX_LOGS :=
  ⟨by decide,
   (log_buffer_cap
     { mc := { mcBase with logs := [{ timestamp := "t0", message := "old", type := .info }] },
       fs := fs0 } "hello" .info (by decide)).1⟩

/-! ## Claim C9 -/

theorem mem_insertSorted {α : Type} (le : α → α → Bool) (x y : α) (l : List α) :
    y ∈ insertSorted le x l ↔ y = x ∨ y ∈ l := by
  induction l with
  | nil => simp [insertSorted]
  | cons z zs ih =>
    by_cases h : le x z
    · simp [insertSorted, h]
    · simp [insertSorted, h, ih]
      tauto

theorem mem_insertionSortBy {α : Type} (le : α → α → Bool) (y : α) (l : List α) :
    y ∈ insertionSortBy le l ↔ y ∈ l := by
  induction l with
  | nil => simp [insertionSortBy]
  | cons x xs ih => simp [insertionSortBy, mem_insertSorted, ih]

theorem getOrInitThen_isOnline (src : RosterSources) (uuid name : String)
    (f : Player → Player) (hf : ∀ p, (f p).isOnline = p.isOnline)
    (m : List (String × Player)) (hm : ∀ kp ∈ m, kp.2.isOnline = false) :
    ∀ kp ∈ getOrInitThen src uuid name f m, kp.2.isOnline = false := by
  induction m with
  | nil =>
    intro kp hkp
    simp only [getOrInitThen, List.mem_singleton] at hkp
    rw [hkp]
    rw [hf]
    rfl
  | cons hd tl ih =>
    obtain ⟨k, p⟩ := hd
    intro kp hkp
    by_cases h : k = uuid
    · simp only [getOrInitThen, if_pos h, List.mem_cons] at hkp
      rcases hkp with hkp | hkp
      · rw [hkp]
        rw [hf]
        exact hm (k, p) (by simp)
      · exact hm kp (by simp [hkp])
    · simp only [getOrInitThen, if_neg h, List.mem_cons] at hkp
      rcases hkp with hkp | hkp
      · rw [hkp]
        exact hm (k, p) (by simp)
      · exact ih (fun e he => hm e (by simp [he])) kp hkp

theorem foldl_getOrInit_isOnline (src : RosterSources) (f : Player → Player)
    (hf : ∀ p, (f p).isOnline = p.isOnline) :
    ∀ (entries : List (String × String)) (m : List (String × Player)),
      (∀ kp ∈ m, kp.2.isOnline = false) →
      ∀ kp ∈ entries.foldl (fun m e => getOrInitThen src e.1 e.2 f m) m,
        kp.2.isOnline = false := by
  intro entries
  induction entries with
  | nil => intro m hm; simpa using hm
  | cons e es ih =>
    intro m hm
    simp only [List.foldl_cons]
    exact ih _ (getOrInitThen_isOnline src e.1 e.2 f hf m hm)

theorem buildRoster_isOnline (src : RosterSources) :
    ∀ kp ∈ buildRoster src, kp.2.isOnline = false := by
  unfold buildRoster
  dsimp only []
  refine foldl_getOrInit_isOnline src (fun p => { p with isWhitelisted := true })
    (fun p => rfl) src.whitelist _ ?_
  refine foldl_getOrInit_isOnline src (fun p => { p with isBanned := true })
    (fun p => rfl) src.banned _ ?_
  refine foldl_getOrInit_isOnline src (fun p => { p with isOp := true })
    (fun p => rfl) src.ops _ ?_
  refine foldl_getOrInit_isOnline src (fun p => { p with source := "cache" })
    (fun p => rfl) src.userCache [] ?_
  intro kp hkp
  simp at hkp

theorem updatePublicFile_mc (w : World) : (updatePublicFile w).mc = w.mc := rfl

theorem getPlayers_static (src : RosterSources) (live : Except String String) (w : World)
    (hdir : w.mc.serverDir ≠ [])
    (hcond : ¬ (w.mc.status = Status.ONLINE ∧ w.mc.rcon = true)) :
    getPlayers src live w =
      (insertionSortBy playerLE ((buildRoster src).map (·.2)),
       updatePublicFile { w with mc := { w.mc with onlinePlayers := [] } }) := by
  unfold getPlayers
  rw [if_neg hdir]
  dsimp only []
  rw [if_neg hcond]

/-- Claim C9: with fixed on-disk identity sources and no live query
performed (state not ONLINE or no connected session), two successive
getPlayers calls return identical player lists — same records, same
flags, same order — and every online flag in them is false; this holds
for any responses the environment would have produced. -/
theorem roster_deterministic (src : RosterSources) (live1 live2 : Except String String)
    (w : World) (h : w.mc.status ≠ Status.ONLINE ∨ w.mc.rcon = false) :
    (getPlayers src live2 ((getPlayers src live1 w).2)).1 = (getPlayers src live1 w).1 ∧
    ∀ p ∈ (getPlayers src live1 w).1, p.isOnline = false := by
  by_cases hdir : w.mc.serverDir = []
  · constructor
    · simp [getPlayers, hdir]
    · simp [getPlayers, hdir]
  · have hcond : ¬ (w.mc.status = Status.ONLINE ∧ w.mc.rcon = true) := by
      rcases h with h | h
      · exact fun hc => h hc.1
      · exact fun hc => by rw [h] at hc; exact Bool.false_ne_true hc.2
    rw [getPlayers_static src live1 w hdir hcond]
    have h2 := getPlayers_static src live2
      (updatePublicFile { w with mc := { w.mc with onlinePlayers := [] } })
      (by rw [updatePublicFile_mc]; exact hdir)
      (by rw [updatePublicFile_mc]; exact hcond)
    constructor
    · rw [h2]
    · intro p hp
      rw [mem_insertionSortBy] at hp
      obtain ⟨kp, hkp, hkp2⟩ := List.mem_map.mp hp
      rw [← hkp2]
      exact buildRoster_isOnline src kp hkp

/-- Witness for C9 on concrete sources and the selected, OFFLINE alpha
instance. -/
theorem roster_deterministic_witness :
    (getPlayers srcSample (.ok "x")
        ((getPlayers srcSample (.ok "x") wConf).2)).1 =
      (getPlayers srcSample (.ok "x") wConf).1 ∧
    ∀ p ∈ (getPlayers srcSample (.ok "x") wConf).1, p.isOnline = false :=
  roster_deterministic srcSample (.ok "x") (.ok "x") wConf (Or.inl (by decide))

/-! ## Claim C10 -/

theorem ancestorsOf_length (p r : FPath) (h : r ∈ ancestorsOf p) : r.length ≤ p.length := by
  simp only [ancestorsOf, List.mem_map, List.mem_range] at h
  obtain ⟨i, _hi, rfl⟩ := h
  simp [List.length_take]

theorem mkdirp_existsSync_longer (fs : FS) (p q : FPath) (now : Nat)
    (hq : fs.existsSync q = false) (hlen : p.length < q.length) :
    (fs.mkdirp p now).existsSync q = false := by
  simp only [FS.existsSync, Bool.or_eq_false_iff] at hq ⊢
  obtain ⟨hd, hf⟩ := hq
  constructor
  · simp only [FS.isDir, FS.mkdirp, List.any_append, Bool.or_eq_false_iff]
    refine ⟨hd, ?_⟩
    rw [List.any_eq_false]
    intro e he
    simp only [List.mem_map, List.mem_filter] at he
    obtain ⟨r, ⟨hr1, _hr2⟩, rfl⟩ := he
    simp only [decide_eq_true_eq]
    intro hcontra
    have := ancestorsOf_length p r hr1
    rw [hcontra] at this
    omega
  · simpa only [FS.isFile, FS.lookupFile, FS.mkdirp] using hf

/-- Claim C10: deleteBackup called with an identifier that names no
existing snapshot directory completes successfully as a silent no-op —
it returns no error (unlike restoreBackup, which rejects the same
identifier with the backup-not-found error when invoked from OFFLINE),
adds no log entry and leaves the object state untouched, keeps every
file, and removes no directory (its only filesystem effect can be the
fresh creation of the empty backups root by getBackupDir). -/
theorem delete_backup_missing_noop (w : World) (actor id : String)
    (hmiss : w.fs.existsSync (backupDirPath w ++ [id]) = false) :
    (deleteBackup actor id w).1 = .ok () ∧
    (deleteBackup actor id w).2.mc = w.mc ∧
    (deleteBackup actor id w).2.fs.files = w.fs.files ∧
    (∀ e ∈ w.fs.dirs, e ∈ (deleteBackup actor id w).2.fs.dirs) ∧
    (w.mc.status = Status.OFFLINE →
      (restoreBackup actor id w).1 = .error "Backup not found") := by
  by_cases hEx : w.fs.existsSync (backupDirPath w) = true
  · have hg : getBackupDir w = (backupDirPath w, w) := by
      unfold getBackupDir
      dsimp only []
      rw [if_neg (by simpa using hEx)]
    have hdel : deleteBackup actor id w = (.ok (), w) := by
      unfold deleteBackup
      rw [hg]
      dsimp only []
      rw [if_neg (by simpa using hmiss)]
    refine ⟨by rw [hdel], by rw [hdel], by rw [hdel], by rw [hdel]; exact fun e he => he, ?_⟩
    intro hoff
    unfold restoreBackup
    rw [if_neg (by simp [hoff]), hg]
    dsimp only []
    rw [if_pos (by simpa using hmiss)]
  · have hg : getBackupDir w =
        (backupDirPath w, { w with fs := w.fs.mkdirp (backupDirPath w) w.mc.now }) := by
      unfold getBackupDir
      dsimp only []
      rw [if_pos (by simpa using hEx)]
    have hmiss2 : (w.fs.mkdirp (backupDirPath w) w.mc.now).existsSync
        (backupDirPath w ++ [id]) = false := by
      refine mkdirp_existsSync_longer w.fs _ _ _ hmiss ?_
      simp
    have hdel : deleteBackup actor id w =
        (.ok (), { w with fs := w.fs.mkdirp (backupDirPath w) w.mc.now }) := by
      unfold deleteBackup
      rw [hg]
      dsimp only []
      rw [if_neg (by simpa using hmiss2)]
    refine ⟨by rw [hdel], by rw [hdel], by rw [hdel]; rfl, ?_, ?_⟩
    · rw [hdel]
      intro e he
      dsimp only [FS.mkdirp]
      exact List.mem_append_left _ he
    · intro hoff
      unfold restoreBackup
      rw [if_neg (by simp [hoff]), hg]
      dsimp only []
      rw [if_pos (by simpa using hmiss2)]

/-- Witness for C10: deleting the missing snapshot "nope" of the OFFLINE
alpha instance is accepted silently while restoring it is rejected. -/
theorem delete_backup_missing_noop_witness :
    (deleteBackup "admin" "nope" wConf).1 = .ok () ∧
    (deleteBackup "admin" "nope" wConf).2.mc = wConf.mc ∧
    (deleteBackup "admin" "nope" wConf).2.fs.files = wConf.fs.files ∧
    (∀ e ∈ wConf.fs.dirs, e ∈ (deleteBackup "admin" "nope" wConf).2.fs.dirs) ∧
    (wConf.mc.status = Status.OFFLINE →
      (restoreBackup "admin" "nope" wConf).1 = .error "Backup not found") :=
  delete_backup_missing_noop wConf "admin" "nope" (by decide)

end Laplace
